import Mathlib

/-!
Verification of the Bonds-Hedging calculation engine (src/app.py).

The numeric pipeline in `main` is embedded shallowly over `ℚ`:
pure arithmetic becomes rational arithmetic, Python's `round` becomes
an explicit round-half-to-even function, and operations that can raise
a Python exception (division by zero) return `Except`.
-/

namespace BondsHedging

/-- Python runtime errors that the embedded operations can raise.
`zeroDivisionError` models Python's `ZeroDivisionError` raised by `/`
when the divisor is zero. -/
inductive PyError where
  | zeroDivisionError
deriving DecidableEq, Repr

/-- `frequency_map.get(label, 1)` from src/app.py lines 251-257:
Monthly→12, Quarterly→4, Semi-Annual→2, Annual→1, anything else→1. -/
def periods_per_year (label : String) : ℕ :=
  if label = "Monthly" then 12
  else if label = "Quarterly" then 4
  else if label = "Semi-Annual" then 2
  else if label = "Annual" then 1
  else 1

/-- `selected_bond.get('Interest Payment Frequency', 'Annual')` composed with
the frequency map (src/app.py line 257): a missing label defaults to the
string "Annual" before the map lookup. -/
def bond_frequency (label : Option String) : ℕ :=
  periods_per_year (label.getD "Annual")

/-- `calculate_returns` from src/app.py lines 55-60:
`periods = years * frequency; periodic_rate = coupon_rate / frequency;
future_value = investment_amount * (1 + periodic_rate) ** periods`. -/
def calculate_returns (investment_amount coupon_rate : ℚ) (frequency years : ℕ) : ℚ :=
  investment_amount * (1 + coupon_rate / (frequency : ℚ)) ^ (years * frequency)

/-- The future-value pipeline of `main` (src/app.py lines 257-260):
`coupon_rate = Coupon / 100`, `frequency = frequency_map.get(label, 1)`,
then `calculate_returns(investment_amount, coupon_rate, frequency, years)`. -/
def future_value (principal annual_coupon_percent : ℚ) (label : String) (years : ℕ) : ℚ :=
  calculate_returns principal (annual_coupon_percent / 100) (periods_per_year label) years

/-- Local→foreign conversion, src/app.py lines 261-262 and 269:
plain Python division (`investment_amount / usdinr_rate`,
`net_inr / exit_usdinr_rate`); raises ZeroDivisionError iff the rate is 0,
with no other validation. -/
def to_foreign (amount rate : ℚ) : Except PyError ℚ :=
  if rate = 0 then Except.error PyError.zeroDivisionError
  else Except.ok (amount / rate)

/-- Foreign→local conversion: plain Python multiplication; never raises. -/
def to_local (amount rate : ℚ) : Except PyError ℚ :=
  Except.ok (amount * rate)

/-- Python 3's built-in `round` to an integer: round half to even
(banker's rounding), modelled exactly on `ℚ`. -/
def py_round (q : ℚ) : ℤ :=
  if q - Int.floor q < 1/2 then Int.floor q
  else if 1/2 < q - Int.floor q then Int.floor q + 1
  else if Int.floor q % 2 = 0 then Int.floor q else Int.floor q + 1

/-- `required_contracts = round(investment_usd / contract_size)`
(src/app.py lines 265-266): plain division then Python `round`;
raises ZeroDivisionError iff contract_size is 0, with no other validation. -/
def contracts_needed (investment_foreign_amount contract_size : ℚ) : Except PyError ℤ :=
  if contract_size = 0 then Except.error PyError.zeroDivisionError
  else Except.ok (py_round (investment_foreign_amount / contract_size))

/-- `futures_pl = (exit_usdinr_rate - usdinr_rate) * contract_size
* required_contracts` (src/app.py line 267). The source uses the contract
size itself as the point value. -/
def futures_pnl (entry_rate exit_rate contract_size : ℚ) (contracts : ℤ) : ℚ :=
  (exit_rate - entry_rate) * contract_size * (contracts : ℚ)

/-- `np.linspace(start, stop, num)`: `num` evenly spaced points
`start + i * (stop - start) / (num - 1)` for `i = 0 .. num-1`.
(For `num = 1` the `ℚ` convention `x / 0 = 0` yields `[start]`,
matching numpy.) -/
def linspace (start stop : ℚ) (num : ℕ) : List ℚ :=
  (List.range num).map (fun (i : ℕ) => start + (i : ℚ) * ((stop - start) / ((num - 1 : ℕ) : ℚ)))

/-- The sensitivity sweep `np.linspace(usdinr_rate * 0.8, usdinr_rate * 1.2, n)`
generalized over the point count `n`. -/
def sweep (usdinr_rate : ℚ) (n : ℕ) : List ℚ :=
  linspace (usdinr_rate * (8/10)) (usdinr_rate * (12/10)) n

/-- `rate_changes = np.linspace(usdinr_rate * 0.8, usdinr_rate * 1.2, 20)`
(src/app.py line 352). -/
def rate_changes (usdinr_rate : ℚ) : List ℚ :=
  sweep usdinr_rate 20

/-- `unhedged_values = future_value / rate_changes` (src/app.py line 353). -/
def unhedged_values (fv : ℚ) (rates : List ℚ) : List ℚ :=
  rates.map (fun r => fv / r)

/-- `hedged_values = [(future_value + (r - usdinr_rate) * contract_size
* required_contracts) / r for r in rate_changes]` (src/app.py line 354). -/
def hedged_values (fv entry_rate contract_size : ℚ) (contracts : ℤ) (rates : List ℚ) : List ℚ :=
  rates.map (fun r => (fv + (r - entry_rate) * contract_size * (contracts : ℚ)) / r)

/-- Modelled from the spec (HedgeEngine contract in section 4.4): the
"round half away from zero" convention the spec attributes to the source.
Used only to compare the spec's claimed rounding against `py_round`. -/
def round_half_away_spec (q : ℚ) : ℤ :=
  if 0 ≤ q then Int.floor (q + 1/2) else Int.ceil (q - 1/2)

/-- `py_round` is within 1/2 of its argument, and lands on an even
integer at exact half-way ties. -/
theorem py_round_dist (q : ℚ) :
    |q - (py_round q : ℚ)| ≤ 1/2 ∧
    (|q - (py_round q : ℚ)| = 1/2 → py_round q % 2 = 0) := by
  have h0 : ((Int.floor q : ℤ) : ℚ) ≤ q := Int.floor_le q
  have h1 : q < ((Int.floor q : ℤ) : ℚ) + 1 := Int.lt_floor_add_one q
  unfold py_round
  split_ifs with hlt hgt heven
  · rw [abs_of_nonneg (by linarith)]
    constructor
    · linarith
    · intro h; linarith
  · push_cast
    rw [abs_of_nonpos (by linarith)]
    constructor
    · linarith
    · intro h; linarith
  · have heq : q - (Int.floor q : ℚ) = 1/2 := le_antisymm (not_lt.mp hgt) (not_lt.mp hlt)
    rw [abs_of_nonneg (by linarith)]
    constructor
    · linarith
    · intro _; exact heven
  · have heq : q - (Int.floor q : ℚ) = 1/2 := le_antisymm (not_lt.mp hgt) (not_lt.mp hlt)
    push_cast
    rw [abs_of_nonpos (by linarith)]
    constructor
    · linarith
    · intro _; omega

/-- `py_round q` is a nearest integer to `q`. -/
theorem py_round_nearest (q : ℚ) (m : ℤ) :
    |q - (py_round q : ℚ)| ≤ |q - (m : ℚ)| := by
  rcases eq_or_ne m (py_round q) with h | h
  · rw [h]
  · have hd := (py_round_dist q).1
    have hint : (1 : ℚ) ≤ |(py_round q : ℚ) - (m : ℚ)| := by
      have : (1 : ℤ) ≤ |py_round q - m| := Int.one_le_abs (sub_ne_zero.mpr (Ne.symm h))
      calc (1 : ℚ) = ((1 : ℤ) : ℚ) := by norm_num
        _ ≤ ((|py_round q - m| : ℤ) : ℚ) := by exact_mod_cast this
        _ = |(py_round q : ℚ) - (m : ℚ)| := by push_cast [Int.cast_abs]; ring_nf
    have htri : |(py_round q : ℚ) - (m : ℚ)| ≤ |q - (py_round q : ℚ)| + |q - (m : ℚ)| := by
      calc |(py_round q : ℚ) - (m : ℚ)| = |((py_round q : ℚ) - q) + (q - (m : ℚ))| := by ring_nf
        _ ≤ |(py_round q : ℚ) - q| + |q - (m : ℚ)| := abs_add _ _
        _ = |q - (py_round q : ℚ)| + |q - (m : ℚ)| := by rw [abs_sub_comm]
    linarith

/-- C2 counterexample: at investment_foreign_amount = 2500 and
contract_size = 1000 the quotient is exactly 2.5; the source's Python
`round` gives 2 (half to even) while the claimed half-away-from-zero
convention gives 3. -/
theorem contracts_needed_not_half_away :
    contracts_needed 2500 1000 ≠ Except.ok (round_half_away_spec (2500 / 1000)) := by
  have h1 : contracts_needed 2500 1000 = Except.ok 2 := by
    simp only [contracts_needed, py_round]
    norm_num
  have h2 : round_half_away_spec (2500 / 1000) = 3 := by
    simp only [round_half_away_spec]
    norm_num
  rw [h1, h2]
  intro h
  exact absurd (Except.ok.inj h) (by norm_num)

/-- C2 (amended): for positive inputs `contracts_needed` succeeds and
returns a nearest integer to investment_foreign_amount / contract_size,
with exact half-way ties rounded half to even (Python 3 `round`);
in particular contracts_needed(11760, 1000) = 12. -/
theorem contracts_needed_nearest_even (a cs : ℚ) (ha : 0 < a) (hcs : 0 < cs) :
    contracts_needed a cs = Except.ok (py_round (a / cs)) ∧
    |a / cs - (py_round (a / cs) : ℚ)| ≤ 1/2 ∧
    (∀ m : ℤ, |a / cs - (py_round (a / cs) : ℚ)| ≤ |a / cs - (m : ℚ)|) ∧
    (|a / cs - (py_round (a / cs) : ℚ)| = 1/2 → py_round (a / cs) % 2 = 0) ∧
    contracts_needed 11760 1000 = Except.ok 12 := by
  refine ⟨?_, (py_round_dist (a / cs)).1, fun m => py_round_nearest (a / cs) m,
    (py_round_dist (a / cs)).2, ?_⟩
  · simp only [contracts_needed, if_neg (ne_of_gt hcs)]
  · simp only [contracts_needed, py_round]
    norm_num

/-- Witness for C2's amended theorem at a = 11764.70…, cs = 1000. -/
theorem contracts_needed_nearest_even_witness :
    contracts_needed (1000000 / 85) 1000 = Except.ok (py_round (1000000 / 85 / 1000)) ∧
    |1000000 / 85 / 1000 - (py_round (1000000 / 85 / 1000) : ℚ)| ≤ 1/2 ∧
    (∀ m : ℤ, |1000000 / 85 / 1000 - (py_round (1000000 / 85 / 1000) : ℚ)| ≤
      |1000000 / 85 / 1000 - (m : ℚ)|) ∧
    (|1000000 / 85 / 1000 - (py_round (1000000 / 85 / 1000) : ℚ)| = 1/2 →
      py_round (1000000 / 85 / 1000) % 2 = 0) ∧
    contracts_needed 11760 1000 = Except.ok 12 :=
  contracts_needed_nearest_even (1000000 / 85) 1000 (by norm_num) (by norm_num)

/-- C3 counterexample: the conversion code performs no rate validation,
so at the non-positive rate −2 `to_foreign` returns a value instead of
failing with any error. -/
theorem to_foreign_negative_rate_ok :
    (-2 : ℚ) ≤ 0 ∧ to_foreign 1000 (-2) = Except.ok (-500) := by
  constructor
  · norm_num
  · simp only [to_foreign]
    norm_num

/-- C3 (amended): the conversions perform no rate validation.
`to_foreign` fails — with a ZeroDivisionError, the only error the plain
division can raise — exactly when rate = 0, and returns amount / rate for
every other rate, negative rates included; `to_local` never fails. -/
theorem conversion_error_iff (amount rate : ℚ) :
    (to_foreign amount rate = Except.error PyError.zeroDivisionError ↔ rate = 0) ∧
    (rate ≠ 0 → to_foreign amount rate = Except.ok (amount / rate)) ∧
    to_local amount rate = Except.ok (amount * rate) := by
  refine ⟨⟨fun h => ?_, fun h => by simp [to_foreign, h]⟩,
    fun h => by simp [to_foreign, h], rfl⟩
  by_contra hr
  simp [to_foreign, hr] at h

/-- Witness for C3's amended theorem at amount = 100, rate = −2. -/
theorem conversion_error_iff_witness :
    to_foreign 100 (-2) = Except.ok (100 / (-2)) :=
  (conversion_error_iff 100 (-2)).2.1 (by norm_num)

/-- C4 counterexample: the claim requires failure whenever
investment_foreign_amount ≤ 0, but at −11760 (contract_size 1000) the
source returns the contract count round(−11.76) = −12 without error. -/
theorem contracts_needed_negative_ok :
    (-11760 : ℚ) ≤ 0 ∧ contracts_needed (-11760) 1000 = Except.ok (-12) := by
  constructor
  · norm_num
  · simp only [contracts_needed, py_round]
    norm_num

/-- C4 (amended): `contracts_needed` performs no input validation: it
fails — with a ZeroDivisionError, not an InvalidInputError — exactly when
contract_size = 0, and for every other pair of inputs (non-positive
amounts included) returns the rounded quotient. -/
theorem contracts_needed_error_iff (a cs : ℚ) :
    (contracts_needed a cs = Except.error PyError.zeroDivisionError ↔ cs = 0) ∧
    (cs ≠ 0 → contracts_needed a cs = Except.ok (py_round (a / cs))) := by
  refine ⟨⟨fun h => ?_, fun h => by simp [contracts_needed, h]⟩,
    fun h => by simp [contracts_needed, h]⟩
  by_contra hcs
  simp [contracts_needed, hcs] at h

/-- Witness for C4's amended theorem at a = −11760, cs = 1000. -/
theorem contracts_needed_error_iff_witness :
    contracts_needed (-11760) 1000 = Except.ok (py_round ((-11760) / 1000)) :=
  (contracts_needed_error_iff (-11760) 1000).2 (by norm_num)

/-- C5: the future-value pipeline of `main` computes
principal × (1 + (percent/100)/n)^(years·n) with n = periods_per_year(label);
at (1000000, 8, "Annual", 1) it yields exactly 1080000. -/
theorem future_value_formula (principal pct : ℚ) (label : String) (years : ℕ)
    (hp : 0 < principal) (hc : 0 ≤ pct) (hy : 1 ≤ years) :
    future_value principal pct label years =
      principal * (1 + pct / 100 / (periods_per_year label : ℚ)) ^
        (years * periods_per_year label) ∧
    future_value 1000000 8 "Annual" 1 = 1080000 := by
  constructor
  · rfl
  · simp only [future_value, calculate_returns, periods_per_year, String.reduceEq]
    norm_num

/-- Witness for C5 at principal = 1000000, pct = 8, label = "Annual",
years = 1. -/
theorem future_value_formula_witness :
    future_value 1000000 8 "Annual" 1 =
      1000000 * (1 + 8 / 100 / (periods_per_year "Annual" : ℚ)) ^
        (1 * periods_per_year "Annual") ∧
    future_value 1000000 8 "Annual" 1 = 1080000 :=
  future_value_formula 1000000 8 "Annual" 1 (by norm_num) (by norm_num) (by norm_num)

/-- C6: the frequency map sends Monthly to 12, Quarterly to 4,
Semi-Annual to 2, Annual to 1; every other label, and a missing label,
yields 1 (the map lookup defaults, it never fails). -/
theorem periods_per_year_spec :
    periods_per_year "Monthly" = 12 ∧ periods_per_year "Quarterly" = 4 ∧
    periods_per_year "Semi-Annual" = 2 ∧ periods_per_year "Annual" = 1 ∧
    (∀ s : String, s ≠ "Monthly" → s ≠ "Quarterly" → s ≠ "Semi-Annual" →
      s ≠ "Annual" → periods_per_year s = 1) ∧
    bond_frequency none = 1 := by
  refine ⟨rfl, rfl, rfl, rfl, fun s h1 h2 h3 h4 => ?_, rfl⟩
  simp [periods_per_year, h1, h2, h3, h4]

/-- Witness for C6's universally quantified clause at the unrecognized
label "Weekly". -/
theorem periods_per_year_spec_witness :
    periods_per_year "Weekly" = 1 :=
  periods_per_year_spec.2.2.2.2.1 "Weekly" (by decide) (by decide) (by decide) (by decide)

/-- C7: when the exit rate equals the entry rate the futures position has
zero P&L and the hedged foreign value equals the unhedged foreign value,
for every contract count, contract size and future value. -/
theorem hedge_neutrality (entry cs fv : ℚ) (contracts : ℤ) (h : 0 < entry) :
    futures_pnl entry entry cs contracts = 0 ∧
    to_foreign (fv + futures_pnl entry entry cs contracts) entry = to_foreign fv entry := by
  have hp : futures_pnl entry entry cs contracts = 0 := by
    simp [futures_pnl]
  exact ⟨hp, by rw [hp, add_zero]⟩

/-- Witness for C7 at entry = 85, cs = 1000, fv = 1080000, contracts = 12. -/
theorem hedge_neutrality_witness :
    futures_pnl 85 85 1000 12 = 0 ∧
    to_foreign (1080000 + futures_pnl 85 85 1000 12) 85 = to_foreign 1080000 85 :=
  hedge_neutrality 85 1000 1080000 12 (by norm_num)

/-- C9: with a zero coupon the future value equals the principal exactly,
for every frequency label and horizon. -/
theorem future_value_zero_coupon (P : ℚ) (label : String) (years : ℕ)
    (hP : 0 < P) (hy : 1 ≤ years) :
    future_value P 0 label years = P := by
  simp [future_value, calculate_returns]

/-- Witness for C9 at P = 123, label = "Quarterly", years = 3. -/
theorem future_value_zero_coupon_witness :
    future_value 123 0 "Quarterly" 3 = 123 :=
  future_value_zero_coupon 123 "Quarterly" 3 (by norm_num) (by norm_num)

/-- C10: when the foreign-denominated investment is worth less than half
a contract, rounding sizes the hedge at 0 contracts, the futures P&L is 0
at every exit rate, and the hedged foreign value coincides with the
unhedged one — the hedge silently vanishes. -/
theorem small_investment_hedge_noop (amount entry cs fv exit_rate : ℚ)
    (h1 : 0 < amount / entry / cs) (h2 : amount / entry / cs < 1/2) :
    contracts_needed (amount / entry) cs = Except.ok 0 ∧
    futures_pnl entry exit_rate cs 0 = 0 ∧
    to_foreign (fv + futures_pnl entry exit_rate cs 0) exit_rate = to_foreign fv exit_rate := by
  have hcs : cs ≠ 0 := by
    intro h
    rw [h, div_zero] at h1
    exact absurd h1 (lt_irrefl 0)
  have hfloor : Int.floor (amount / entry / cs) = 0 := by
    rw [Int.floor_eq_zero_iff]
    constructor
    · exact le_of_lt h1
    · linarith
  have hround : py_round (amount / entry / cs) = 0 := by
    simp only [py_round, hfloor]
    norm_num
    intro hge
    linarith
  have hpnl : futures_pnl entry exit_rate cs 0 = 0 := by
    simp [futures_pnl]
  refine ⟨?_, hpnl, by rw [hpnl, add_zero]⟩
  simp only [contracts_needed, if_neg hcs, hround]

/-- Witness for C10 at amount = 10000, entry = 85, cs = 1000,
fv = 10800, exit = 90 (investment_usd ≈ 117.6, 0.1176 contracts). -/
theorem small_investment_hedge_noop_witness :
    contracts_needed (10000 / 85) 1000 = Except.ok 0 ∧
    futures_pnl 85 90 1000 0 = 0 ∧
    to_foreign (10800 + futures_pnl 85 90 1000 0) 90 = to_foreign 10800 90 :=
  small_investment_hedge_noop 10000 85 1000 10800 90 (by norm_num) (by norm_num)

/-- C8: the sensitivity sweep over n evenly spaced exit rates spanning
[0.8·r, 1.2·r] has exactly n points, is strictly increasing, and when n
is odd its middle point is the entry rate r; the source instantiates it
at n = 20. -/
theorem sweep_spec (r : ℚ) (n : ℕ) (hr : 0 < r) (hn : 2 ≤ n) :
    (sweep r n).length = n ∧
    (sweep r n).Pairwise (· < ·) ∧
    (n % 2 = 1 → (sweep r n).getD ((n - 1) / 2) 0 = r) ∧
    rate_changes r = sweep r 20 := by
  have hstep : 0 < (r * (12/10) - r * (8/10)) / ((n - 1 : ℕ) : ℚ) := by
    apply div_pos
    · linarith
    · have h1 : (0 : ℕ) < n - 1 := by omega
      exact_mod_cast h1
  have hexp : sweep r n = (List.range n).map
      (fun (i : ℕ) => r * (8/10) + (i : ℚ) *
        ((r * (12/10) - r * (8/10)) / ((n - 1 : ℕ) : ℚ))) := rfl
  refine ⟨?_, ?_, ?_, rfl⟩
  · rw [hexp]
    simp only [List.length_map, List.length_range]
  · rw [hexp]
    apply List.Pairwise.map _ ?_ (List.pairwise_lt_range n)
    intro a b hab
    have hcast : (a : ℚ) < (b : ℚ) := by exact_mod_cast hab
    have hmul := mul_lt_mul_of_pos_right hcast hstep
    linarith
  · intro hodd
    obtain ⟨m, hm⟩ : ∃ m, n = 2 * m + 1 := ⟨n / 2, by omega⟩
    have hmpos : 1 ≤ m := by omega
    have hidx : (n - 1) / 2 = m := by omega
    rw [hexp]
    have hlen : (n - 1) / 2 < ((List.range n).map
        (fun (i : ℕ) => r * (8/10) + (i : ℚ) *
          ((r * (12/10) - r * (8/10)) / ((n - 1 : ℕ) : ℚ)))).length := by
      simp only [List.length_map, List.length_range]
      omega
    rw [List.getD_eq_getElem _ _ hlen]
    simp only [List.getElem_map, List.getElem_range, hidx]
    have hsub : ((n - 1 : ℕ) : ℚ) = 2 * (m : ℚ) := by
      have h2 : n - 1 = 2 * m := by omega
      rw [h2]
      push_cast
      ring
    rw [hsub]
    have hm0 : (m : ℚ) ≠ 0 := by
      have h3 : (0 : ℚ) < (m : ℚ) := by exact_mod_cast hmpos
      linarith
    field_simp
    ring

/-- Witness for C8 at entry rate r = 1 with n = 5 points
(sweep = [0.8, 0.9, 1, 1.1, 1.2], middle point 1). -/
theorem sweep_spec_witness :
    (sweep 1 5).length = 5 ∧
    (sweep 1 5).Pairwise (· < ·) ∧
    (5 % 2 = 1 → (sweep 1 5).getD ((5 - 1) / 2) 0 = 1) ∧
    rate_changes 1 = sweep 1 20 :=
  sweep_spec 1 5 (by norm_num) (by norm_num)

/-- C1: the end-to-end scenario: 1,000,000 INR at entry rate 85 into an
8% Annual bond for 1 year gives future value 1,080,000, foreign
investment 1000000/85 ≈ 11764.71, 12 contracts, futures P&L 51,000,
hedged local value 1,131,000, hedged foreign ≈ 12672.27, unhedged
foreign ≈ 12100.84, and the hedged foreign value beats the unhedged one. -/
theorem end_to_end_scenario :
    future_value 1000000 8 "Annual" 1 = 1080000 ∧
    to_foreign 1000000 85 = Except.ok (1000000 / 85) ∧
    |(1000000 / 85 : ℚ) - 11764.71| < 1/100 ∧
    contracts_needed (1000000 / 85) 1000 = Except.ok 12 ∧
    futures_pnl 85 89.25 1000 12 = 51000 ∧
    future_value 1000000 8 "Annual" 1 + futures_pnl 85 89.25 1000 12 = 1131000 ∧
    to_foreign 1131000 89.25 = Except.ok (1131000 / 89.25) ∧
    |(1131000 / 89.25 : ℚ) - 12672.27| < 1/100 ∧
    to_foreign 1080000 89.25 = Except.ok (1080000 / 89.25) ∧
    |(1080000 / 89.25 : ℚ) - 12100.84| < 1/100 ∧
    (1080000 / 89.25 : ℚ) < 1131000 / 89.25 := by
  have hfv : future_value 1000000 8 "Annual" 1 = 1080000 := by
    simp only [future_value, calculate_returns, periods_per_year, String.reduceEq]
    norm_num
  refine ⟨hfv, ?_, ?_, ?_, ?_, ?_, ?_, ?_, ?_, ?_, ?_⟩
  · simp only [to_foreign]
    norm_num
  · rw [abs_lt]
    constructor <;> norm_num
  · simp only [contracts_needed, py_round]
    norm_num
  · simp only [futures_pnl]
    norm_num
  · rw [hfv]
    simp only [futures_pnl]
    norm_num
  · simp only [to_foreign]
    norm_num
  · rw [abs_lt]
    constructor <;> norm_num
  · simp only [to_foreign]
    norm_num
  · rw [abs_lt]
    constructor <;> norm_num
  · norm_num

end BondsHedging
